import Mathlib

/-!
Shallow embedding of the afterlife-vault / inactive-email-manager sources.

Two programs are embedded:
* `Manager` — `src/index.ts`: the `SleepWorkflow` countdown (notify → sleep →
  release), HMAC-signed invitation issuance (`sendInvitationEmail`), the
  contact-email handler (`handleContactEmail`), the owner-email invitation
  fan-out (`handleOwnerEmail`), and `parseDays` with a 365-day ceiling.
* `Vault` — the alternate worker (unnamed source file): `parseDays` with a
  3650-day ceiling, JWT trigger-token issuance (`createToken`), and the
  email handler's reply-message selection for token verification outcomes.

Modelling conventions:
* JavaScript numbers (floating-point day counts, millisecond/second
  timestamps) are modelled as rationals `ℚ`; `Math.floor(Date.now() / 1000)`
  is passed in as an integer number of seconds.
* `parseFloat` of an environment string is modelled as an `Option ℚ` input
  (`none` = the string parsed as NaN); `parseDays` itself is embedded.
* `crypto.subtle` HMAC-SHA256 is abstracted as an arbitrary function
  `hmac : String → String → List Nat` from (secret, message) to MAC bytes;
  `crypto.subtle.verify` is byte-equality of the candidate signature with
  the recomputed MAC, exactly as the Workers runtime behaves.
* Byte strings are `List Nat` with each entry `< 256` (`Uint8Array` cells).
-/

/-- Value of one hex digit, as `Number.parseInt(c, 16)` computes it for the
digits `0-9`, `a-f`, `A-F` (other characters never reach `decodeHex`: the
token regex only matches `[0-9a-f]`). -/
def hexVal (c : Char) : Nat :=
  if c.isDigit then c.toNat - 48
  else if 'a' ≤ c ∧ c ≤ 'f' then c.toNat - 87
  else if 'A' ≤ c ∧ c ≤ 'F' then c.toNat - 55
  else 0

/-- Hex digit character for a value `< 16`, lowercase as produced by
JavaScript `Number.prototype.toString(16)`. -/
def toHexDigit (n : Nat) : Char :=
  if n < 10 then Char.ofNat (48 + n) else Char.ofNat (87 + n)

/-- One byte rendered as `x.toString(16).padStart(2, "0")` for `x < 256`:
exactly two lowercase hex digits. -/
def byteToHexChars (b : Nat) : List Char :=
  [toHexDigit (b / 16), toHexDigit (b % 16)]

/-- Hex rendering of a MAC, as built in `sendInvitationEmail`:
`Array.prototype.map.call(new Uint8Array(signature), x => x.toString(16).padStart(2, "0")).join("")`. -/
def bytesToHexChars : List Nat → List Char
  | [] => []
  | b :: bs => byteToHexChars b ++ bytesToHexChars bs

/-- String form of `bytesToHexChars`. -/
def bytesToHex (bs : List Nat) : String :=
  String.mk (bytesToHexChars bs)

/-- Embedding of `decodeHex` (src/index.ts): consume two hex characters per
byte; a trailing odd character is parsed alone, matching
`Number.parseInt(str.slice(i, i += 2), 16)` on a one-character slice. -/
def decodeHexChars : List Char → List Nat
  | [] => []
  | [c] => [hexVal c]
  | c1 :: c2 :: rest => (16 * hexVal c1 + hexVal c2) :: decodeHexChars rest

/-- String form of `decodeHexChars`. -/
def decodeHex (s : String) : List Nat :=
  decodeHexChars s.data

/-- The canonical invitation payload
`JSON.stringify({ contact, owner, usage: "invitation" })` — keys in
alphabetical order, exactly as both `sendInvitationEmail` and
`handleContactEmail` build it. -/
def canonicalPayload (contact owner : String) : String :=
  "\x7b\"contact\":\"" ++ contact ++ "\",\"owner\":\"" ++ owner ++
    "\",\"usage\":\"invitation\"\x7d"

/-- Lowercase hex digit predicate: the character class `[0-9a-f]` of the
token-extraction regex `/iem-([0-9a-f]{12,})/`. -/
def isLowerHexDigit (c : Char) : Bool :=
  c.isDigit || (decide ('a' ≤ c) && decide (c ≤ 'f'))

/-- Leftmost match of `/iem-([0-9a-f]{12,})/`: at each position, if the text
starts with `iem-` followed by at least 12 hex digits, the (greedy) capture
is the maximal hex run; otherwise scanning continues one position right. -/
def findToken : List Char → Option (List Char)
  | [] => none
  | c :: rest =>
    if (c :: rest).take 4 = ['i', 'e', 'm', '-'] then
      let run := List.takeWhile isLowerHexDigit ((c :: rest).drop 4)
      if 12 ≤ run.length then some run else findToken rest
    else findToken rest

/-- Token extraction from an optional email body (`email.text?.match(...)`):
an absent body yields no token. -/
def extractToken : Option String → Option String
  | none => none
  | some s => (findToken s.data).map String.mk

/-- Splitting a character list at a separator, the JavaScript
`String.prototype.split` semantics (always at least one group). -/
def splitAtChar (sep : Char) : List Char → List (List Char)
  | [] => [[]]
  | c :: rest =>
    let r := splitAtChar sep rest
    if c = sep then [] :: r
    else
      match r with
      | [] => [[c]]
      | g :: gs => (c :: g) :: gs

/-- The domain part `addr.split("@")[1]` of an email address (the part
after the first `@`; addresses reaching this point contain one). -/
def domainOf (addr : String) : String :=
  match (splitAtChar '@' addr.data).map String.mk with
  | _ :: d :: _ => d
  | _ => ""

theorem hexVal_toHexDigit (n : Nat) (h : n < 16) : hexVal (toHexDigit n) = n := by
  interval_cases n <;> decide

theorem decodeHexChars_byteToHexChars (b : Nat) (hb : b < 256) (bs : List Nat) :
    decodeHexChars (byteToHexChars b ++ bytesToHexChars bs) =
      b :: decodeHexChars (bytesToHexChars bs) := by
  have h1 : b / 16 < 16 := by omega
  have h2 : b % 16 < 16 := Nat.mod_lt _ (by norm_num)
  cases hbs : bytesToHexChars bs with
  | nil =>
    simp [byteToHexChars, decodeHexChars, hexVal_toHexDigit _ h1,
      hexVal_toHexDigit _ h2]
    omega
  | cons c cs =>
    simp [byteToHexChars, decodeHexChars, hexVal_toHexDigit _ h1,
      hexVal_toHexDigit _ h2, ← hbs]
    omega

/-- Round trip: decoding the hex rendering of a byte string recovers the
bytes, provided every entry fits in a `Uint8Array` cell. -/
theorem decodeHex_bytesToHex (bs : List Nat) (h : ∀ b ∈ bs, b < 256) :
    decodeHex (bytesToHex bs) = bs := by
  show decodeHexChars (bytesToHexChars bs) = bs
  induction bs with
  | nil => rfl
  | cons b bs ih =>
    have hb : b < 256 := h b (List.mem_cons_self b bs)
    have hrest : ∀ x ∈ bs, x < 256 := fun x hx => h x (List.mem_cons_of_mem _ hx)
    rw [bytesToHexChars, decodeHexChars_byteToHexChars b hb bs, ih hrest]

namespace Manager

/-- Environment bindings consumed by src/index.ts. `NOT_BEFORE_DAYS` is the
`parseFloat` result of the configured string (`none` = NaN). -/
structure Env where
  SECRET : String
  OWNER_EMAIL : String
  SENDER_EMAIL : Option String
  NOT_BEFORE_DAYS : Option ℚ
  VAULT_CONTENT : String

/-- Embedding of `parseDays` (src/index.ts): NaN ↦ 0, values above 365 ↦ 0,
otherwise the parsed value. -/
def parseDays (parsed : Option ℚ) : ℚ :=
  match parsed with
  | none => 0
  | some days => if days > 365 then 0 else days

/-- `DEFAULT_NOT_BEFORE_DAYS` constant. -/
def DEFAULT_NOT_BEFORE_DAYS : ℚ := 7

/-- JavaScript `x || d` on numbers (for `x` a `parseDays` result, which is
never NaN): `0` is falsy, everything else is kept. -/
def orDefault (x d : ℚ) : ℚ :=
  if x = 0 then d else x

/-- The sleep duration scheduled by `SleepWorkflow.run`:
`(parseDays(this.env.NOT_BEFORE_DAYS) || DEFAULT_NOT_BEFORE_DAYS) * (24 * 60 * 60 * 1000)`
milliseconds. -/
def sleepDurationMs (env : Env) : ℚ :=
  orDefault (parseDays env.NOT_BEFORE_DAYS) DEFAULT_NOT_BEFORE_DAYS *
    (24 * 60 * 60 * 1000)

/-- Both workflow steps use `retries: { limit: 2, ... }`: two retries after
the first attempt, so three attempts in total. -/
def stepAttemptBudget : Nat := 2 + 1

/-- Whether a `step.do` body with per-attempt outcomes `f` succeeds within
the retry budget: some attempt among the first `budget` returns success. -/
def stepOk (f : Nat → Bool) (budget : Nat) : Bool :=
  (List.range budget).any f

/-- Terminal status of a workflow instance. -/
inductive Outcome where
  | completed
  | failed
deriving DecidableEq, Repr

/-- Observable effects of one `SleepWorkflow.run` execution. -/
structure RunResult where
  notified : Bool
  sleptMs : Option ℚ
  releaseAttempted : Bool
  releaseDelivered : Bool
  errorLogged : Bool
  outcome : Outcome
deriving DecidableEq, Repr

/-- Embedding of `SleepWorkflow.run`. `notify` and `send` give the outcome of
each delivery attempt of the respective step. The notify step's exhaustion
propagates out of `run` (instance fails); the send step is wrapped in
`try { ... } catch (e) { console.error(...) }`, so its exhaustion is logged
and the run still completes. -/
def SleepWorkflow.run (env : Env) (notify send : Nat → Bool) : RunResult :=
  if stepOk notify stepAttemptBudget then
    if stepOk send stepAttemptBudget then
      { notified := true
        sleptMs := some (sleepDurationMs env)
        releaseAttempted := true
        releaseDelivered := true
        errorLogged := false
        outcome := .completed }
    else
      { notified := true
        sleptMs := some (sleepDurationMs env)
        releaseAttempted := true
        releaseDelivered := false
        errorLogged := true
        outcome := .completed }
  else
    { notified := false
      sleptMs := none
      releaseAttempted := false
      releaseDelivered := false
      errorLogged := false
      outcome := .failed }

/-- The invitation signature, in hex, embedded by `sendInvitationEmail` into
the `mailto:` body as `iem-<hex>`: the HMAC of the canonical payload under
`env.SECRET`, rendered byte by byte. -/
def issueSignatureHex (hmac : String → String → List Nat)
    (secret owner contact : String) : String :=
  bytesToHex (hmac secret (canonicalPayload contact owner))

/-- Signature check performed by `handleContactEmail`:
`crypto.subtle.verify("HMAC", key, decodeHex(token), enc.encode(dataToSign))`
— the decoded candidate bytes must equal the MAC recomputed over the
canonical payload for (contact, owner). -/
def verifyInvitationSig (hmac : String → String → List Nat)
    (secret contact owner sigHex : String) : Bool :=
  decide (decodeHex sigHex = hmac secret (canonicalPayload contact owner))

/-- Inbound message fields used by the handlers. `inReplyTo` is the presence
of the parsed `In-Reply-To` header; `text` is the optional plain-text body. -/
structure InboundMsg where
  msgFrom : String
  msgTo : String
  inReplyTo : Bool
  text : Option String

/-- Parameters of a created `SLEEP` workflow instance:
`{ id: workflowId, identity: message.from, domain: message.to.split("@")[1] }`. -/
structure WorkflowParams where
  id : String
  identity : String
  domain : String
deriving DecidableEq, Repr

/-- Embedding of `handleContactEmail`, restricted to its workflow-creation
effect: returns the parameters of the created instance, or `none` when no
instance is created (reply-to-a-reply, missing token, or failed signature
verification). `wid` stands in for `crypto.randomUUID()`. -/
def handleContactEmail (hmac : String → String → List Nat) (env : Env)
    (wid : String) (message : InboundMsg) : Option WorkflowParams :=
  if message.inReplyTo then none
  else
    match extractToken message.text with
    | none => none
    | some token =>
      if decodeHex token = hmac env.SECRET
          (canonicalPayload message.msgFrom env.OWNER_EMAIL) then
        some { id := wid, identity := message.msgFrom, domain := domainOf message.msgTo }
      else none

/-- Per-contact send outcomes of the invitation fan-out in
`handleOwnerEmail`: `Promise.allSettled(contacts.map(...))` settles every
promise independently, one entry per contact in order. `outcome i c` is the
settlement of the send to contact `c` at index `i` (`.ok` = fulfilled,
`.error reason` = rejected). -/
def fanOutFrom (outcome : Nat → String → Except String Unit) :
    Nat → List String → List (Except String Unit)
  | _, [] => []
  | i, c :: rest => outcome i c :: fanOutFrom outcome (i + 1) rest

/-- The settled results for the whole contact list. -/
def fanOutResults (contacts : List String)
    (outcome : Nat → String → Except String Unit) : List (Except String Unit) :=
  fanOutFrom outcome 0 contacts

/-- One line of the results report:
`` `${contacts[i]}: ${r.status === "fulfilled" ? "success" : r.reason}\n` ``. -/
def reportLine (contact : String) (r : Except String Unit) : String :=
  contact ++ ": " ++ (match r with | .ok _ => "success" | .error reason => reason) ++ "\n"

/-- All report lines, in contact order. -/
def reportLinesFrom (outcome : Nat → String → Except String Unit) :
    Nat → List String → List String
  | _, [] => []
  | i, c :: rest => reportLine c (outcome i c) :: reportLinesFrom outcome (i + 1) rest

/-- The joined results report sent back to the owner. -/
def resultsReport (contacts : List String)
    (outcome : Nat → String → Except String Unit) : String :=
  String.join (reportLinesFrom outcome 0 contacts)

end Manager

namespace Vault

/-- Environment bindings consumed by the vault worker. Day settings are the
`parseFloat` results of the configured strings (`none` = NaN). -/
structure Env where
  SECRET : String
  OWNER_EMAIL : String
  SENDER_EMAIL : Option String
  NOT_BEFORE_DAYS : Option ℚ
  EXPIRATION_DAYS : Option ℚ
  VAULT_CONTENT : String

/-- Embedding of the vault worker's `parseDays`: NaN ↦ 0, values above
3650 ↦ 0, otherwise the parsed value. -/
def parseDays (parsed : Option ℚ) : ℚ :=
  match parsed with
  | none => 0
  | some days => if days > 3650 then 0 else days

/-- The effective not-before day count of `createToken`:
`parseDays(env.NOT_BEFORE_DAYS) || 3`. -/
def effNotBeforeDays (env : Env) : ℚ :=
  Manager.orDefault (parseDays env.NOT_BEFORE_DAYS) 3

/-- The effective expiration day count of `createToken`:
`Math.max(parseDays(env.EXPIRATION_DAYS) || 7, notBeforeDays + 0.03)`. -/
def effExpirationDays (env : Env) : ℚ :=
  max (Manager.orDefault (parseDays env.EXPIRATION_DAYS) 7)
    (effNotBeforeDays env + 3 / 100)

/-- JWT claims signed by `createToken`. `nbf`/`exp` are the JavaScript
numbers `Math.floor(Date.now() / 1000) + days * 24 * 60 * 60` (possibly
fractional, since the day counts are floats). -/
structure TokenPayload where
  identity : String
  nbf : ℚ
  exp : ℚ
deriving DecidableEq, Repr

/-- A signed token: the claims plus the MAC over their encoding. `enc` (the
JWT header/payload serialization of the external library) is abstracted as a
function parameter wherever tokens are built or checked. -/
structure Token where
  payload : TokenPayload
  sig : List Nat
deriving DecidableEq, Repr

/-- Failure response of `createToken`:
`Response.json({ error: e.message }, { status: 500 })`. -/
structure ErrorResponse where
  error : String
  status : Nat
deriving DecidableEq, Repr

/-- Embedding of `createToken`. `tNbf` and `tExp` are the two
`Math.floor(Date.now() / 1000)` reads (the `nbf` one is evaluated first),
and `sendResult` is the outcome of `env.OWNER.send(message)`: on a send
failure the function returns the 500 error response and signs nothing. -/
def createToken (hmac : String → String → List Nat)
    (enc : TokenPayload → String) (env : Env) (identity : String)
    (tNbf tExp : ℤ) (sendResult : Except String Unit) :
    Except ErrorResponse Token :=
  let notBeforeDays := effNotBeforeDays env
  let expirationDays := effExpirationDays env
  match sendResult with
  | .error e => .error { error := e, status := 500 }
  | .ok _ =>
    let payload : TokenPayload :=
      { identity := identity
        nbf := (tNbf : ℚ) + notBeforeDays * (24 * 60 * 60)
        exp := (tExp : ℚ) + expirationDays * (24 * 60 * 60) }
    .ok { payload := payload, sig := hmac env.SECRET (enc payload) }

/-- Discriminated verification failures, mirroring the error messages the
email handler matches on (`NOT_YET_VALID`, `EXPIRED`) plus the generic
rest. -/
inductive VerifyError where
  | notYetValid
  | expired
  | invalidSignature
  | malformed
deriving DecidableEq, Repr

/-- A token string as submitted by a requester: either it parses as a JWT
(claims plus signature bytes) or it is malformed. -/
inductive SubmittedToken where
  | malformed (raw : String)
  | parsed (payload : TokenPayload) (sig : List Nat)
deriving DecidableEq, Repr

/-- The `nbf` claim read back by `decode(token)` in the not-yet-valid
branch of the email handler. -/
def nbfOf : SubmittedToken → ℚ
  | .malformed _ => 0
  | .parsed payload _ => payload.nbf

/-- Modelled from the spec: `verify(token, env.SECRET, { throwError: true })`
of the external `@tsndr/cloudflare-worker-jwt` library, which is not part of
this repository. Per the spec, verification checks the signature first and
then the time bounds, the token being valid exactly for
now ∈ [notBefore, expiresAt). -/
def verifyToken (hmac : String → String → List Nat)
    (enc : TokenPayload → String) (secret : String) (tok : SubmittedToken)
    (now : ℤ) : Except VerifyError String :=
  match tok with
  | .malformed _ => .error .malformed
  | .parsed payload sig =>
    if sig = hmac secret (enc payload) then
      if (now : ℚ) < payload.nbf then .error .notYetValid
      else if payload.exp ≤ (now : ℚ) then .error .expired
      else .ok payload.identity
    else .error .invalidSignature

/-- The reply body chosen by the vault email handler when the inbound mail
carries a token: the vault content on success, a not-yet-valid explanation
quoting `new Date(decoded.payload.nbf * 1000).toUTCString()` (rendered by
the abstract formatter `utc`), the expired message, or the generic invalid
message for every other failure. -/
def tokenReplyBody (hmac : String → String → List Nat)
    (enc : TokenPayload → String) (utc : ℚ → String) (env : Env)
    (tok : SubmittedToken) (now : ℤ) : String :=
  match verifyToken hmac enc env.SECRET tok now with
  | .ok _ => env.VAULT_CONTENT
  | .error .notYetValid =>
    "Token is not yet valid. It will be valid after " ++ utc (nbfOf tok)
  | .error .expired => "Token has expired."
  | .error .invalidSignature => "Invalid token."
  | .error .malformed => "Invalid token."

end Vault

theorem stepOk_eq_false_of_all_fail (f : Nat → Bool) (budget : Nat)
    (h : ∀ i < budget, f i = false) : Manager.stepOk f budget = false := by
  simp only [Manager.stepOk, List.any_eq_false]
  intro i hi
  simp [h i (List.mem_range.mp hi)]

/-- C1: if the notify step of `SleepWorkflow.run` fails on all three attempts
of its retry budget, the instance ends `failed`, no sleep is scheduled, and
the release send is never attempted. -/
theorem notify_exhaustion_fails_without_sleep_or_release
    (env : Manager.Env) (notify send : Nat → Bool)
    (h : ∀ i < Manager.stepAttemptBudget, notify i = false) :
    Manager.SleepWorkflow.run env notify send =
      { notified := false
        sleptMs := none
        releaseAttempted := false
        releaseDelivered := false
        errorLogged := false
        outcome := .failed } := by
  unfold Manager.SleepWorkflow.run
  rw [stepOk_eq_false_of_all_fail notify Manager.stepAttemptBudget h]
  simp

theorem notify_exhaustion_witness :
    (∀ i < Manager.stepAttemptBudget, (fun _ => false) i = false) ∧
    Manager.SleepWorkflow.run
      { SECRET := "s", OWNER_EMAIL := "o@x.com", SENDER_EMAIL := none,
        NOT_BEFORE_DAYS := some 7, VAULT_CONTENT := "v" }
      (fun _ => false) (fun _ => true) =
      { notified := false
        sleptMs := none
        releaseAttempted := false
        releaseDelivered := false
        errorLogged := false
        outcome := .failed } :=
  ⟨fun _ _ => rfl,
    notify_exhaustion_fails_without_sleep_or_release _ _ _ (fun _ _ => rfl)⟩

/-- C2: if the notify step succeeds within its budget but the release send
fails on all three attempts, the error is caught and logged and the run
still terminates normally: the instance ends `completed`, not `failed`, for
every environment. -/
theorem release_exhaustion_logged_and_completed
    (env : Manager.Env) (notify send : Nat → Bool)
    (hn : Manager.stepOk notify Manager.stepAttemptBudget = true)
    (hs : ∀ i < Manager.stepAttemptBudget, send i = false) :
    Manager.SleepWorkflow.run env notify send =
      { notified := true
        sleptMs := some (Manager.sleepDurationMs env)
        releaseAttempted := true
        releaseDelivered := false
        errorLogged := true
        outcome := .completed } := by
  unfold Manager.SleepWorkflow.run
  rw [hn, stepOk_eq_false_of_all_fail send Manager.stepAttemptBudget hs]
  simp

theorem release_exhaustion_witness :
    Manager.stepOk (fun _ => true) Manager.stepAttemptBudget = true ∧
    (∀ i < Manager.stepAttemptBudget, (fun _ => false) i = false) ∧
    Manager.SleepWorkflow.run
      { SECRET := "s", OWNER_EMAIL := "o@x.com", SENDER_EMAIL := none,
        NOT_BEFORE_DAYS := some 7, VAULT_CONTENT := "v" }
      (fun _ => true) (fun _ => false) =
      { notified := true
        sleptMs := some (7 * (24 * 60 * 60 * 1000))
        releaseAttempted := true
        releaseDelivered := false
        errorLogged := true
        outcome := .completed } :=
  ⟨by decide, fun _ _ => rfl,
    release_exhaustion_logged_and_completed _ _ _ (by decide) (fun _ _ => rfl)⟩

/-- C7: `parseDays` maps NaN and values above the ceiling (365 for the
workflow source, 3650 for the vault source) to 0 and is the identity
otherwise; the sleeping caller substitutes the default of 7 days whenever
`parseDays` yields 0, the scheduled wait is
`(parseDays(NOT_BEFORE_DAYS) || 7) * 86400000` milliseconds, and that wait
is never zero. -/
theorem parseDays_defaults_and_sleep_never_zero (d : ℚ) (env : Manager.Env) :
    Manager.parseDays none = 0 ∧
    Vault.parseDays none = 0 ∧
    (365 < d → Manager.parseDays (some d) = 0) ∧
    (d ≤ 365 → Manager.parseDays (some d) = d) ∧
    (3650 < d → Vault.parseDays (some d) = 0) ∧
    (d ≤ 3650 → Vault.parseDays (some d) = d) ∧
    Manager.sleepDurationMs env =
      Manager.orDefault (Manager.parseDays env.NOT_BEFORE_DAYS) 7 * 86400000 ∧
    (Manager.parseDays env.NOT_BEFORE_DAYS = 0 →
      Manager.sleepDurationMs env = 7 * 86400000) ∧
    Manager.sleepDurationMs env ≠ 0 := by
  refine ⟨rfl, rfl, ?_, ?_, ?_, ?_, ?_, ?_, ?_⟩
  · intro h
    simp [Manager.parseDays, h]
  · intro h
    simp [Manager.parseDays, not_lt.mpr h]
  · intro h
    simp [Vault.parseDays, h]
  · intro h
    simp [Vault.parseDays, not_lt.mpr h]
  · norm_num [Manager.sleepDurationMs, Manager.DEFAULT_NOT_BEFORE_DAYS]
  · intro h
    norm_num [Manager.sleepDurationMs, Manager.orDefault, h,
      Manager.DEFAULT_NOT_BEFORE_DAYS]
  · have hbase : Manager.orDefault (Manager.parseDays env.NOT_BEFORE_DAYS)
        Manager.DEFAULT_NOT_BEFORE_DAYS ≠ 0 := by
      unfold Manager.orDefault Manager.DEFAULT_NOT_BEFORE_DAYS
      split <;> norm_num
      assumption
    unfold Manager.sleepDurationMs
    exact mul_ne_zero hbase (by norm_num)

theorem parseDays_defaults_witness :
    365 < (400 : ℚ) ∧ Manager.parseDays (some 400) = 0 ∧
    Manager.sleepDurationMs
      { SECRET := "s", OWNER_EMAIL := "o@x.com", SENDER_EMAIL := none,
        NOT_BEFORE_DAYS := some 400, VAULT_CONTENT := "v" } ≠ 0 :=
  ⟨by norm_num,
    (parseDays_defaults_and_sleep_never_zero 400
      { SECRET := "s", OWNER_EMAIL := "o@x.com", SENDER_EMAIL := none,
        NOT_BEFORE_DAYS := some 400, VAULT_CONTENT := "v" }).2.2.1 (by norm_num),
    (parseDays_defaults_and_sleep_never_zero 400
      { SECRET := "s", OWNER_EMAIL := "o@x.com", SENDER_EMAIL := none,
        NOT_BEFORE_DAYS := some 400, VAULT_CONTENT := "v" }).2.2.2.2.2.2.2.2⟩

/-- C10: `createToken` signs nothing when the owner notification could not
be handed to the mail transport: a send failure yields the 500 error
response, and a signed token is only ever returned when the send
succeeded. -/
theorem token_exists_only_after_notification
    (hmac : String → String → List Nat) (enc : Vault.TokenPayload → String)
    (env : Vault.Env) (identity : String) (tNbf tExp : ℤ)
    (sendResult : Except String Unit) :
    (∀ e, sendResult = .error e →
      Vault.createToken hmac enc env identity tNbf tExp sendResult =
        .error { error := e, status := 500 }) ∧
    (∀ tok,
      Vault.createToken hmac enc env identity tNbf tExp sendResult = .ok tok →
      sendResult = .ok ()) := by
  constructor
  · intro e he
    subst he
    rfl
  · intro tok h
    cases sendResult with
    | error e => simp [Vault.createToken] at h
    | ok u => rfl

theorem token_exists_only_after_notification_witness :
    (Except.error "transport down" : Except String Unit) = .error "transport down" ∧
    Vault.createToken (fun _ _ => [0]) (fun _ => "p")
      { SECRET := "s", OWNER_EMAIL := "o@x.com", SENDER_EMAIL := none,
        NOT_BEFORE_DAYS := some 5, EXPIRATION_DAYS := some 10,
        VAULT_CONTENT := "v" }
      "a@x.com" 1000 1000 (.error "transport down") =
      .error { error := "transport down", status := 500 } :=
  ⟨rfl,
    (token_exists_only_after_notification (fun _ _ => [0]) (fun _ => "p")
      { SECRET := "s", OWNER_EMAIL := "o@x.com", SENDER_EMAIL := none,
        NOT_BEFORE_DAYS := some 5, EXPIRATION_DAYS := some 10,
        VAULT_CONTENT := "v" }
      "a@x.com" 1000 1000 (.error "transport down")).1 "transport down" rfl⟩

/-- C4: every token produced by `createToken` has `nbf < exp` with a gap of
at least `0.03 * 86400 = 2592` seconds, because the effective expiration day
count is `max(parseDays(EXPIRATION_DAYS) || 7, notBeforeDays + 0.03)`; so
the validity window is never empty, for every environment configuration. -/
theorem trigger_token_window_nonempty
    (hmac : String → String → List Nat) (enc : Vault.TokenPayload → String)
    (env : Vault.Env) (identity : String) (tNbf tExp : ℤ)
    (sendResult : Except String Unit) (tok : Vault.Token)
    (hle : tNbf ≤ tExp)
    (h : Vault.createToken hmac enc env identity tNbf tExp sendResult = .ok tok) :
    tok.payload.nbf < tok.payload.exp ∧
    2592 ≤ tok.payload.exp - tok.payload.nbf ∧
    Vault.effExpirationDays env =
      max (Manager.orDefault (Vault.parseDays env.EXPIRATION_DAYS) 7)
        (Vault.effNotBeforeDays env + 3 / 100) := by
  cases sendResult with
  | error e => simp [Vault.createToken] at h
  | ok u =>
    simp only [Vault.createToken, Except.ok.injEq] at h
    subst h
    have hmax : Vault.effNotBeforeDays env + 3 / 100 ≤
        Vault.effExpirationDays env := le_max_right _ _
    have hc : (tNbf : ℚ) ≤ (tExp : ℚ) := by exact_mod_cast hle
    refine ⟨?_, ?_, rfl⟩
    · simp only
      nlinarith [hmax, hc]
    · simp only
      nlinarith [hmax, hc]

theorem trigger_token_window_witness :
    (1000 : ℤ) ≤ 1000 ∧
    Vault.createToken (fun _ _ => [0]) (fun _ => "p")
      { SECRET := "s", OWNER_EMAIL := "o@x.com", SENDER_EMAIL := none,
        NOT_BEFORE_DAYS := some 5, EXPIRATION_DAYS := some 10,
        VAULT_CONTENT := "v" }
      "a@x.com" 1000 1000 (.ok ()) =
      .ok { payload := { identity := "a@x.com", nbf := 433000, exp := 865000 },
            sig := [0] } ∧
    (433000 : ℚ) < 865000 := by
  have hEq : Vault.createToken (fun _ _ => [0]) (fun _ => "p")
      { SECRET := "s", OWNER_EMAIL := "o@x.com", SENDER_EMAIL := none,
        NOT_BEFORE_DAYS := some 5, EXPIRATION_DAYS := some 10,
        VAULT_CONTENT := "v" }
      "a@x.com" 1000 1000 (.ok ()) =
      .ok { payload := { identity := "a@x.com", nbf := 433000, exp := 865000 },
            sig := [0] } := by
    simp [Vault.createToken, Vault.effNotBeforeDays, Vault.effExpirationDays,
      Vault.parseDays, Manager.orDefault]
    norm_num
  refine ⟨le_refl _, hEq, ?_⟩
  have h := (trigger_token_window_nonempty (fun _ _ => [0]) (fun _ => "p")
    { SECRET := "s", OWNER_EMAIL := "o@x.com", SENDER_EMAIL := none,
      NOT_BEFORE_DAYS := some 5, EXPIRATION_DAYS := some 10,
      VAULT_CONTENT := "v" }
    "a@x.com" 1000 1000 (.ok ()) _ (le_refl _) hEq).1
  simpa using h

/-- C5 (counterexample): with `NOT_BEFORE_DAYS` configured as `-1` the
claim's hypothesis `expirationDays ≥ notBeforeDays + ε` holds (the effective
expiration is 7 days), yet immediate verification of the freshly issued
token succeeds outright instead of returning not-yet-valid: `nbf` lies one
day in the past, not strictly in the future. -/
theorem immediate_not_yet_valid_counterexample :
    Vault.createToken (fun _ _ => [0]) (fun _ => "p")
      { SECRET := "s", OWNER_EMAIL := "o@x.com", SENDER_EMAIL := none,
        NOT_BEFORE_DAYS := some (-1), EXPIRATION_DAYS := none,
        VAULT_CONTENT := "v" }
      "a@x.com" 100 100 (.ok ()) =
      .ok { payload := { identity := "a@x.com", nbf := -86300, exp := 604900 },
            sig := [0] } ∧
    Vault.effNotBeforeDays
        { SECRET := "s", OWNER_EMAIL := "o@x.com", SENDER_EMAIL := none,
          NOT_BEFORE_DAYS := some (-1), EXPIRATION_DAYS := none,
          VAULT_CONTENT := "v" } + 3 / 100 ≤
      Vault.effExpirationDays
        { SECRET := "s", OWNER_EMAIL := "o@x.com", SENDER_EMAIL := none,
          NOT_BEFORE_DAYS := some (-1), EXPIRATION_DAYS := none,
          VAULT_CONTENT := "v" } ∧
    Vault.verifyToken (fun _ _ => [0]) (fun _ => "p") "s"
      (.parsed { identity := "a@x.com", nbf := -86300, exp := 604900 } [0])
      100 = .ok "a@x.com" ∧
    Vault.verifyToken (fun _ _ => [0]) (fun _ => "p") "s"
      (.parsed { identity := "a@x.com", nbf := -86300, exp := 604900 } [0])
      100 ≠ .error .notYetValid := by
  refine ⟨?_, ?_, ?_, ?_⟩
  · simp [Vault.createToken, Vault.effNotBeforeDays, Vault.effExpirationDays,
      Vault.parseDays, Manager.orDefault]
    norm_num
  · norm_num [Vault.effNotBeforeDays, Vault.effExpirationDays,
      Vault.parseDays, Manager.orDefault]
  · norm_num [Vault.verifyToken]
  · norm_num [Vault.verifyToken]
    exact fun hcon => Except.noConfusion hcon

/-- C5 (amended): for every identity and environment whose effective
not-before day count is positive, immediate verification (at the issuance
instant) of a freshly issued token returns `NotYetValid`, because `nbf`
is then strictly in the future; the claim's hypothesis
`expirationDays ≥ notBeforeDays + ε` is enforced by issuance itself. -/
theorem immediate_verify_not_yet_valid_of_pos_notBefore
    (hmac : String → String → List Nat) (enc : Vault.TokenPayload → String)
    (env : Vault.Env) (identity : String) (tNbf tExp : ℤ)
    (sendResult : Except String Unit) (tok : Vault.Token)
    (hpos : 0 < Vault.effNotBeforeDays env)
    (h : Vault.createToken hmac enc env identity tNbf tExp sendResult = .ok tok) :
    Vault.effNotBeforeDays env + 3 / 100 ≤ Vault.effExpirationDays env ∧
    Vault.verifyToken hmac enc env.SECRET (.parsed tok.payload tok.sig) tNbf =
      .error .notYetValid := by
  refine ⟨le_max_right _ _, ?_⟩
  cases sendResult with
  | error e => simp [Vault.createToken] at h
  | ok u =>
    simp only [Vault.createToken, Except.ok.injEq] at h
    subst h
    have hlt : (tNbf : ℚ) < (tNbf : ℚ) +
        Vault.effNotBeforeDays env * (24 * 60 * 60) := by
      have := mul_pos hpos (by norm_num : (0 : ℚ) < 24 * 60 * 60)
      linarith
    simp [Vault.verifyToken, hlt]

theorem immediate_verify_not_yet_valid_witness :
    (0 : ℚ) < Vault.effNotBeforeDays
      { SECRET := "s", OWNER_EMAIL := "o@x.com", SENDER_EMAIL := none,
        NOT_BEFORE_DAYS := some 5, EXPIRATION_DAYS := some 10,
        VAULT_CONTENT := "v" } ∧
    Vault.verifyToken (fun _ _ => [0]) (fun _ => "p") "s"
      (.parsed { identity := "a@x.com", nbf := 433000, exp := 865000 } [0])
      1000 = .error .notYetValid := by
  have hpos : (0 : ℚ) < Vault.effNotBeforeDays
      { SECRET := "s", OWNER_EMAIL := "o@x.com", SENDER_EMAIL := none,
        NOT_BEFORE_DAYS := some 5, EXPIRATION_DAYS := some 10,
        VAULT_CONTENT := "v" } := by
    norm_num [Vault.effNotBeforeDays, Vault.parseDays, Manager.orDefault]
  have hEq : Vault.createToken (fun _ _ => [0]) (fun _ => "p")
      { SECRET := "s", OWNER_EMAIL := "o@x.com", SENDER_EMAIL := none,
        NOT_BEFORE_DAYS := some 5, EXPIRATION_DAYS := some 10,
        VAULT_CONTENT := "v" }
      "a@x.com" 1000 1000 (.ok ()) =
      .ok { payload := { identity := "a@x.com", nbf := 433000, exp := 865000 },
            sig := [0] } := by
    simp [Vault.createToken, Vault.effNotBeforeDays, Vault.effExpirationDays,
      Vault.parseDays, Manager.orDefault]
    norm_num
  have h := (immediate_verify_not_yet_valid_of_pos_notBefore
    (fun _ _ => [0]) (fun _ => "p")
    { SECRET := "s", OWNER_EMAIL := "o@x.com", SENDER_EMAIL := none,
      NOT_BEFORE_DAYS := some 5, EXPIRATION_DAYS := some 10,
      VAULT_CONTENT := "v" }
    "a@x.com" 1000 1000 (.ok ()) _ hpos hEq).2
  exact ⟨hpos, h⟩

/-- C3: invitation issuance is a pure function of (secret, owner, contact):
the signature is exactly the HMAC over the canonical alphabetical-key
payload, two issuances with identical inputs agree, and the contact-side
verification of the issued hex signature succeeds on every one of an
unbounded number of repetitions. -/
theorem invitation_issue_deterministic_and_replayable
    (hmac : String → String → List Nat) (secret owner contact : String)
    (hbytes : ∀ b ∈ hmac secret (canonicalPayload contact owner), b < 256) :
    Manager.issueSignatureHex hmac secret owner contact =
      bytesToHex (hmac secret (canonicalPayload contact owner)) ∧
    Manager.issueSignatureHex hmac secret owner contact =
      Manager.issueSignatureHex hmac secret owner contact ∧
    Manager.verifyInvitationSig hmac secret contact owner
      (Manager.issueSignatureHex hmac secret owner contact) = true ∧
    ∀ n : Nat,
      (List.replicate n (Manager.verifyInvitationSig hmac secret contact owner
        (Manager.issueSignatureHex hmac secret owner contact))).all
        (fun b => b) = true := by
  have hver : Manager.verifyInvitationSig hmac secret contact owner
      (Manager.issueSignatureHex hmac secret owner contact) = true := by
    unfold Manager.verifyInvitationSig Manager.issueSignatureHex
    rw [decodeHex_bytesToHex _ hbytes]
    simp
  refine ⟨rfl, rfl, hver, fun n => ?_⟩
  rw [hver]
  simp [List.all_eq_true]

theorem invitation_replayable_witness :
    (∀ b ∈ (fun _ _ => [18, 52, 171] : String → String → List Nat) "s"
      (canonicalPayload "c@x.com" "o@z.com"), b < 256) ∧
    Manager.verifyInvitationSig (fun _ _ => [18, 52, 171]) "s" "c@x.com"
      "o@z.com"
      (Manager.issueSignatureHex (fun _ _ => [18, 52, 171]) "s" "o@z.com"
        "c@x.com") = true :=
  ⟨by decide,
    (invitation_issue_deterministic_and_replayable (fun _ _ => [18, 52, 171])
      "s" "o@z.com" "c@x.com" (by decide)).2.2.1⟩

theorem fanOutFrom_length (outcome : Nat → String → Except String Unit)
    (i : Nat) (contacts : List String) :
    (Manager.fanOutFrom outcome i contacts).length = contacts.length := by
  induction contacts generalizing i with
  | nil => rfl
  | cons c rest ih => simp [Manager.fanOutFrom, ih]

theorem fanOutFrom_getElem (outcome : Nat → String → Except String Unit)
    (contacts : List String) (i j : Nat) :
    (Manager.fanOutFrom outcome i contacts)[j]? =
      contacts[j]?.map (fun c => outcome (i + j) c) := by
  induction contacts generalizing i j with
  | nil => simp [Manager.fanOutFrom]
  | cons c rest ih =>
    cases j with
    | zero => simp [Manager.fanOutFrom]
    | succ j =>
      have harith : i + (j + 1) = i + 1 + j := by omega
      simp [Manager.fanOutFrom, ih (i + 1) j, harith]

theorem reportLinesFrom_getElem (outcome : Nat → String → Except String Unit)
    (contacts : List String) (i j : Nat) :
    (Manager.reportLinesFrom outcome i contacts)[j]? =
      contacts[j]?.map (fun c => Manager.reportLine c (outcome (i + j) c)) := by
  induction contacts generalizing i j with
  | nil => simp [Manager.reportLinesFrom]
  | cons c rest ih =>
    cases j with
    | zero => simp [Manager.reportLinesFrom]
    | succ j =>
      have harith : i + (j + 1) = i + 1 + j := by omega
      simp [Manager.reportLinesFrom, ih (i + 1) j, harith]

/-- C8: the `Promise.allSettled` fan-out settles one entry per contact, in
order: every contact's send is attempted and its own outcome (success or
the failure reason) is recorded in the results report at its own index, and
changing the outcome of one contact never changes any other contact's
recorded entry (wait-for-all-outcomes, not fail-fast). -/
theorem fanout_attempts_all_and_isolates_failures
    (contacts : List String)
    (outcome outcome2 : Nat → String → Except String Unit) (j : Nat) :
    (Manager.fanOutResults contacts outcome).length = contacts.length ∧
    (∀ i c, contacts[i]? = some c →
      (Manager.fanOutResults contacts outcome)[i]? = some (outcome i c)) ∧
    (∀ i c, contacts[i]? = some c →
      (Manager.reportLinesFrom outcome 0 contacts)[i]? =
        some (Manager.reportLine c (outcome i c))) ∧
    ((∀ i, i ≠ j → ∀ c, outcome i c = outcome2 i c) →
      ∀ i, i ≠ j →
        (Manager.fanOutResults contacts outcome)[i]? =
          (Manager.fanOutResults contacts outcome2)[i]?) := by
  refine ⟨fanOutFrom_length outcome 0 contacts, ?_, ?_, ?_⟩
  · intro i c hc
    rw [Manager.fanOutResults, fanOutFrom_getElem, hc]
    simp
  · intro i c hc
    rw [reportLinesFrom_getElem, hc]
    simp
  · intro hagree i hij
    rw [Manager.fanOutResults, Manager.fanOutResults, fanOutFrom_getElem,
      fanOutFrom_getElem]
    cases hc : contacts[i]? with
    | none => simp
    | some c => simp [Nat.zero_add, hagree i hij c]

theorem fanout_witness :
    (["c1@x.com", "c2@x.com", "c3@x.com"][1]? = some "c2@x.com") ∧
    (Manager.fanOutResults ["c1@x.com", "c2@x.com", "c3@x.com"]
      (fun _ c => if c = "c2@x.com" then .error "send failed" else .ok ()))[1]? =
      some (.error "send failed") ∧
    (Manager.fanOutResults ["c1@x.com", "c2@x.com", "c3@x.com"]
      (fun _ c => if c = "c2@x.com" then .error "send failed" else .ok ()))[0]? =
      some (.ok ()) ∧
    (Manager.fanOutResults ["c1@x.com", "c2@x.com", "c3@x.com"]
      (fun _ c => if c = "c2@x.com" then .error "send failed" else .ok ())).length = 3 := by
  have h := fanout_attempts_all_and_isolates_failures
    ["c1@x.com", "c2@x.com", "c3@x.com"]
    (fun _ c => if c = "c2@x.com" then .error "send failed" else .ok ())
    (fun _ c => if c = "c2@x.com" then .error "send failed" else .ok ()) 0
  refine ⟨by decide, ?_, ?_, ?_⟩
  · have h2 := h.2.1 1 "c2@x.com" (by decide)
    simpa using h2
  · have h0 := h.2.1 0 "c1@x.com" (by decide)
    simpa using h0
  · simpa using h.1

/-- C6: when token verification fails, the reply body distinguishes exactly
three cases: not-yet-valid quotes the token's own `nbf` instant (through
the `toUTCString` formatter `utc`), expiry gets its own fixed message, and
both remaining failure kinds (tampered signature, malformed token) collapse
into one generic invalid-token message. -/
theorem token_reply_three_failure_cases
    (hmac : String → String → List Nat) (enc : Vault.TokenPayload → String)
    (utc : ℚ → String) (env : Vault.Env) (tok : Vault.SubmittedToken)
    (now : ℤ) (e : Vault.VerifyError)
    (h : Vault.verifyToken hmac enc env.SECRET tok now = .error e) :
    Vault.tokenReplyBody hmac enc utc env tok now =
      match e with
      | .notYetValid =>
        "Token is not yet valid. It will be valid after " ++ utc (Vault.nbfOf tok)
      | .expired => "Token has expired."
      | .invalidSignature => "Invalid token."
      | .malformed => "Invalid token." := by
  cases e <;> simp [Vault.tokenReplyBody, h]

theorem token_reply_witness :
    Vault.verifyToken (fun _ _ => [0]) (fun _ => "p")
      ({ SECRET := "s", OWNER_EMAIL := "o@x.com", SENDER_EMAIL := none,
         NOT_BEFORE_DAYS := some 5, EXPIRATION_DAYS := some 10,
         VAULT_CONTENT := "v" } : Vault.Env).SECRET
      (.malformed "gibberish") 0 = .error .malformed ∧
    Vault.tokenReplyBody (fun _ _ => [0]) (fun _ => "p") (fun _ => "utc")
      { SECRET := "s", OWNER_EMAIL := "o@x.com", SENDER_EMAIL := none,
        NOT_BEFORE_DAYS := some 5, EXPIRATION_DAYS := some 10,
        VAULT_CONTENT := "v" }
      (.malformed "gibberish") 0 = "Invalid token." :=
  ⟨rfl,
    token_reply_three_failure_cases (fun _ _ => [0]) (fun _ => "p")
      (fun _ => "utc")
      { SECRET := "s", OWNER_EMAIL := "o@x.com", SENDER_EMAIL := none,
        NOT_BEFORE_DAYS := some 5, EXPIRATION_DAYS := some 10,
        VAULT_CONTENT := "v" }
      (.malformed "gibberish") 0 .malformed rfl⟩

/-- C9: `handleContactEmail` creates a workflow instance exactly when the
message is not a reply, carries an `iem-` hex token, and that token's
decoded bytes equal the HMAC over the canonical payload for
(contact = the sender address, owner = `OWNER_EMAIL`); the created instance
uses the sender as identity and the recipient's domain. Without a token no
instance is created, and a signature computed for any other
(contact, owner) pair whose MAC differs from the expected one never
creates an instance. -/
theorem contact_workflow_requires_valid_invitation
    (hmac : String → String → List Nat) (env : Manager.Env)
    (wid : String) (message : Manager.InboundMsg) :
    (∀ p, Manager.handleContactEmail hmac env wid message = some p →
      message.inReplyTo = false ∧
      ∃ tok, extractToken message.text = some tok ∧
        decodeHex tok =
          hmac env.SECRET (canonicalPayload message.msgFrom env.OWNER_EMAIL) ∧
        p = { id := wid, identity := message.msgFrom,
              domain := domainOf message.msgTo }) ∧
    (extractToken message.text = none →
      Manager.handleContactEmail hmac env wid message = none) ∧
    (∀ contact2 owner2 tok,
      extractToken message.text = some tok →
      decodeHex tok = hmac env.SECRET (canonicalPayload contact2 owner2) →
      hmac env.SECRET (canonicalPayload contact2 owner2) ≠
        hmac env.SECRET (canonicalPayload message.msgFrom env.OWNER_EMAIL) →
      Manager.handleContactEmail hmac env wid message = none) := by
  refine ⟨?_, ?_, ?_⟩
  · intro p hp
    unfold Manager.handleContactEmail at hp
    split at hp
    · exact absurd hp (by simp)
    next hr =>
      split at hp
      · exact absurd hp (by simp)
      next token heq =>
        split at hp
        next hsig =>
          refine ⟨by simpa using hr, token, heq, hsig, ?_⟩
          exact (Option.some.inj hp).symm
        next hsig => exact absurd hp (by simp)
  · intro hnone
    unfold Manager.handleContactEmail
    split
    · rfl
    · rw [hnone]
  · intro contact2 owner2 tok htok hdec hne
    unfold Manager.handleContactEmail
    split
    · rfl
    · rw [htok]
      have hsig : ¬(decodeHex tok =
          hmac env.SECRET (canonicalPayload message.msgFrom env.OWNER_EMAIL)) := by
        rw [hdec]
        exact hne
      simp [hsig]

theorem contact_workflow_witness :
    extractToken (some "hello there") = none ∧
    Manager.handleContactEmail (fun _ _ => [18, 52, 171, 205, 239, 1])
      { SECRET := "s", OWNER_EMAIL := "o@z.com", SENDER_EMAIL := none,
        NOT_BEFORE_DAYS := some 7, VAULT_CONTENT := "v" }
      "w1"
      { msgFrom := "c@x.com", msgTo := "bot@y.com", inReplyTo := false,
        text := some "hello there" } = none ∧
    Manager.handleContactEmail (fun _ _ => [18, 52, 171, 205, 239, 1])
      { SECRET := "s", OWNER_EMAIL := "o@z.com", SENDER_EMAIL := none,
        NOT_BEFORE_DAYS := some 7, VAULT_CONTENT := "v" }
      "w1"
      { msgFrom := "c@x.com", msgTo := "bot@y.com", inReplyTo := false,
        text := some "request iem-1234abcdef01 end" } =
      some { id := "w1", identity := "c@x.com", domain := "y.com" } :=
  ⟨by decide,
    (contact_workflow_requires_valid_invitation
      (fun _ _ => [18, 52, 171, 205, 239, 1])
      { SECRET := "s", OWNER_EMAIL := "o@z.com", SENDER_EMAIL := none,
        NOT_BEFORE_DAYS := some 7, VAULT_CONTENT := "v" }
      "w1"
      { msgFrom := "c@x.com", msgTo := "bot@y.com", inReplyTo := false,
        text := some "hello there" }).2.1 (by decide),
    by decide⟩
